import Mathlib

/-!
# Fire Weather Index client (`frontend/src/App.js`)

A shallow embedding of the client-side logic of `App.js`: the form state and its
update handlers, the risk classifier `computeRiskLevel`, the two halves of the
asynchronous `handleSubmit` (the synchronous prefix and the continuation that runs
when the request settles), and the map properties derived from the coordinate fields.

JavaScript numbers are embedded exactly.  A finite Number is a dyadic rational
`m * 2 ^ e`, kept as the pair of integers `(m, e)`; `NaN` and the two infinities are
separate constructors.  Negative zero is identified with zero, which none of the
operations used by `App.js` (`<`, `isNaN`, `toFixed`) can tell apart.  The built-ins
`parseFloat` and `Number.prototype.toFixed` follow ECMA-262, including rounding of
decimal text to the nearest binary64 value.

The application is an event loop over the hook state.  One run of a handler (an input
or submit event, a geolocation callback, the part of `handleSubmit` after its `await`s)
is one transition: the state writes made by it take effect together.
-/

namespace FireWeather

/-! ## JavaScript numbers -/

/-- A JavaScript Number value: `NaN`, `±Infinity`, or the finite value `m * 2 ^ e`. -/
inductive JSNum where
  | nan
  | inf (neg : Bool)
  | fin (m : ℤ) (e : ℤ)
  deriving DecidableEq, Repr

/-- The mathematical value of the finite number `fin m e`. -/
def finVal (m e : ℤ) : ℚ := (m : ℚ) * (2 : ℚ) ^ e

/-- Test `m₁ * 2 ^ e₁ < m₂ * 2 ^ e₂`, after scaling both sides to the smaller exponent. -/
def ltFin (m₁ e₁ m₂ e₂ : ℤ) : Bool :=
  decide (m₁ * 2 ^ (e₁ - min e₁ e₂).toNat < m₂ * 2 ^ (e₂ - min e₁ e₂).toNat)

/-- The relational operator `a < b` on Numbers: false as soon as an operand is `NaN`. -/
def JSNum.lt : JSNum → JSNum → Bool
  | .nan, _ => false
  | _, .nan => false
  | .inf true, .inf true => false
  | .inf true, _ => true
  | _, .inf true => false
  | .inf false, _ => false
  | _, .inf false => true
  | .fin m₁ e₁, .fin m₂ e₂ => ltFin m₁ e₁ m₂ e₂

/-- Equality of the mathematical values of two Numbers (`NaN` equals nothing). -/
def JSNum.sameValue : JSNum → JSNum → Bool
  | .inf a, .inf b => a == b
  | .fin m₁ e₁, .fin m₂ e₂ => !ltFin m₁ e₁ m₂ e₂ && !ltFin m₂ e₂ m₁ e₁
  | _, _ => false

/-- The global `isNaN` on a Number. -/
def isNaN : JSNum → Bool
  | .nan => true
  | _ => false

/-- The Number value of an integer literal. -/
def JSNum.ofInt (n : ℤ) : JSNum := .fin n 0

/-! ## Rounding a rational to binary64 -/

/-- Fuelled worker for `ilog2`. -/
def ilog2Aux : ℕ → ℕ → ℕ
  | 0, _ => 0
  | fuel + 1, n => if n < 2 then 0 else ilog2Aux fuel (n / 2) + 1

/-- The position of the leading bit: `⌊log₂ n⌋` for `n > 0`. -/
def ilog2 (n : ℕ) : ℕ := ilog2Aux n n

/-- The integer `⌊log₂ (N / den)⌋` for positive `N` and `den`. -/
def floorLog2 (N den : ℕ) : ℤ :=
  let e₀ : ℤ := (ilog2 N : ℤ) - (ilog2 den : ℤ)
  if 0 ≤ e₀ then
    if den * 2 ^ e₀.toNat ≤ N then e₀ else e₀ - 1
  else
    if den ≤ N * 2 ^ (-e₀).toNat then e₀ else e₀ - 1

/-- The quotient `a / b` rounded to the nearest integer, ties to the even one. -/
def roundHalfEven (a b : ℕ) : ℕ :=
  let q := a / b
  let r := a % b
  if 2 * r < b then q else if b < 2 * r then q + 1 else if q % 2 = 0 then q else q + 1

/-- The Number value of the positive rational `N / den`: round to 53 significant bits
(to the subnormal grid below `2 ^ (-1022)`), ties to even, overflowing to infinity. -/
def roundToDouble (neg : Bool) (N den : ℕ) : JSNum :=
  let E := max (floorLog2 N den) (-1022)
  let sh := E - 52
  let m := if 0 ≤ sh then roundHalfEven N (den * 2 ^ sh.toNat)
           else roundHalfEven (N * 2 ^ (-sh).toNat) den
  if 1023 < E ∨ (E = 1023 ∧ 2 ^ 53 ≤ m) then .inf neg
  else .fin (if neg then -(m : ℤ) else (m : ℤ)) sh

/-- The Number value of the decimal `± digits * 10 ^ exp10`. -/
def decimalToDouble (neg : Bool) (digits : ℕ) (exp10 : ℤ) : JSNum :=
  if digits = 0 then .fin 0 0
  else if 0 ≤ exp10 then roundToDouble neg (digits * 10 ^ exp10.toNat) 1
  else roundToDouble neg digits (10 ^ (-exp10).toNat)

/-! ## `parseFloat` -/

/-- The characters removed by `TrimString`: WhiteSpace and LineTerminator. -/
def isStrWhiteSpaceChar (c : Char) : Bool :=
  let n := c.toNat
  n = 0x09 || n = 0x0A || n = 0x0B || n = 0x0C || n = 0x0D || n = 0x20 || n = 0xA0 ||
  n = 0x1680 || (0x2000 ≤ n && n ≤ 0x200A) || n = 0x2028 || n = 0x2029 || n = 0x202F ||
  n = 0x205F || n = 0x3000 || n = 0xFEFF

/-- The value of a run of decimal digits. -/
def digitsToNat (ds : List Char) : ℕ :=
  ds.foldl (fun acc c => 10 * acc + (c.toNat - 48)) 0

/-- The digits of an exponent, signed; `0` when no digit follows the indicator. -/
def exponentDigits (neg : Bool) (cs : List Char) : ℤ :=
  let ds := cs.takeWhile Char.isDigit
  if neg then -(digitsToNat ds : ℤ) else (digitsToNat ds : ℤ)

/-- The value of the ExponentPart at the head of `cs`, or `0` when there is none (an
indicator without digits is not part of the longest literal prefix). -/
def parseExponent : List Char → ℤ
  | [] => 0
  | c :: t =>
    if c = 'e' ∨ c = 'E' then
      match t with
      | '+' :: u => exponentDigits false u
      | '-' :: u => exponentDigits true u
      | u => exponentDigits false u
    else 0

/-- The Number for the longest prefix of `u` that is a StrUnsignedDecimalLiteral, with
sign `neg`; `NaN` when no prefix is one. -/
def parseUnsigned (neg : Bool) (u : List Char) : JSNum :=
  if "Infinity".toList.isPrefixOf u then .inf neg
  else
    let ip := u.takeWhile Char.isDigit
    match u.dropWhile Char.isDigit with
    | '.' :: v =>
      let fp := v.takeWhile Char.isDigit
      if ip = [] ∧ fp = [] then .nan
      else decimalToDouble neg (digitsToNat (ip ++ fp))
        (parseExponent (v.dropWhile Char.isDigit) - (fp.length : ℤ))
    | r => if ip = [] then .nan else decimalToDouble neg (digitsToNat ip) (parseExponent r)

/-- The global `parseFloat` applied to a String. -/
def parseFloatStr (s : String) : JSNum :=
  match s.toList.dropWhile isStrWhiteSpaceChar with
  | '+' :: u => parseUnsigned false u
  | '-' :: u => parseUnsigned true u
  | u => parseUnsigned false u

/-- The values `parseFloat` is applied to in `App.js`: a Number or a String.  (Any other
value is first converted by `ToString`, so it is covered by `str` of its string form.) -/
inductive JSVal where
  | num (n : JSNum)
  | str (s : String)
  deriving DecidableEq

/-- The global `parseFloat`.  Applied to a Number it returns that Number: `ToString`
produces digits that read back as the same value. -/
def parseFloat : JSVal → JSNum
  | .num n => n
  | .str s => parseFloatStr s

/-! ## `Number.prototype.toFixed` -/

/-- Test `a * 2 ^ e ≥ c` for naturals `a` and `c`. -/
def geScaled (a : ℕ) (e : ℤ) (c : ℕ) : Bool :=
  if 0 ≤ e then decide (c ≤ a * 2 ^ e.toNat) else decide (c * 2 ^ (-e).toNat ≤ a)

/-- The integer `n` for which `n / 10 ^ f` is closest to `a * 2 ^ e`, the larger one on
a tie: `⌊a * 2 ^ e * 10 ^ f + 1 / 2⌋`. -/
def roundScaled (a : ℕ) (e : ℤ) (f : ℕ) : ℕ :=
  if 0 ≤ e then a * 2 ^ e.toNat * 10 ^ f
  else (2 * (a * 10 ^ f) + 2 ^ (-e).toNat) / (2 * 2 ^ (-e).toNat)

/-- The decimal digits of `n`, at least `f + 1` of them (padded with zeros on the left),
with a point before the last `f` when `f ≠ 0`. -/
def fixedDigits (n f : ℕ) : List Char :=
  let m := Nat.toDigits 10 n
  if f ≠ 0 then
    let m := if m.length ≤ f then List.replicate (f + 1 - m.length) '0' ++ m else m
    m.take (m.length - f) ++ '.' :: m.drop (m.length - f)
  else m

/-- The integer part `⌊a * 2 ^ e⌋`. -/
def floorScaled (a : ℕ) (e : ℤ) : ℕ :=
  if 0 ≤ e then a * 2 ^ e.toNat else a / 2 ^ (-e).toNat

/-- Does the decimal `s * 10 ^ p` round to the Number `a * 2 ^ e`? -/
def readsBackAs (s p a : ℕ) (e : ℤ) : Bool :=
  (decimalToDouble false s p).sameValue (.fin a e)

/-- Search for the shortest digit string: the least `k ≥ 1` with a `k`-digit `s` such that
`s * 10 ^ (L - k)` reads back as `a * 2 ^ e`, where `L` is the number of integer digits
of the value; of the two candidates around the value the closer one is taken.  The
result is `(s, k, n)`; `fuel` counts the lengths left to try (17 digits always suffice
for a binary64 value). -/
def shortestDigits (a : ℕ) (e : ℤ) (L : ℕ) : ℕ → ℕ → ℕ × ℕ × ℕ
  | 0, k => (floorScaled a e / 10 ^ (L - k), k, L)
  | fuel + 1, k =>
    let p := L - k
    let lo := floorScaled a e / 10 ^ p
    let okLo := readsBackAs lo p a e
    let okHi := readsBackAs (lo + 1) p a e
    let hiCloser := geScaled (2 * a) e ((2 * lo + 1) * 10 ^ p)
    if okHi ∧ (¬ okLo ∨ hiCloser) then
      if lo + 1 = 10 ^ k then (1, 1, L + 1) else (lo + 1, k, L)
    else if okLo then (lo, k, L)
    else shortestDigits a e L fuel (k + 1)

/-- The string `Number::toString` gives for a finite Number `a * 2 ^ e ≥ 10 ^ 21`, the only
range in which `toFixed` calls it: there the decimal exponent `n` exceeds 21 and the
result is in exponent form, `d[.ddd]e+(n-1)`. -/
def numberToStringLarge (a : ℕ) (e : ℤ) : List Char :=
  let L := (Nat.toDigits 10 (floorScaled a e)).length
  let (s, k, n) := shortestDigits a e L 17 1
  let ds := Nat.toDigits 10 s
  let mant := if k = 1 then ds else ds.take 1 ++ '.' :: ds.drop 1
  mant ++ 'e' :: '+' :: Nat.toDigits 10 (n - 1)

/-- The method `Number.prototype.toFixed(f)`, for `0 ≤ f ≤ 100`. -/
def toFixed (x : JSNum) (f : ℕ) : String :=
  match x with
  | .nan => "NaN"
  | .inf false => "Infinity"
  | .inf true => "-Infinity"
  | .fin m e =>
    let s := if m < 0 then ['-'] else []
    if geScaled m.natAbs e (10 ^ 21) then String.mk (s ++ numberToStringLarge m.natAbs e)
    else String.mk (s ++ fixedDigits (roundScaled m.natAbs e f) f)

/-! ## Risk classifier -/

/-- The object returned by `computeRiskLevel`. -/
structure RiskLevel where
  label : String
  color : String
  deriving DecidableEq, Repr

/-- The function `computeRiskLevel` of `App.js`. -/
def computeRiskLevel (fwi : JSVal) : RiskLevel :=
  let v := parseFloat fwi
  if v.lt (.ofInt 6) then { label := "Low", color := "#2ecc71" }
  else if v.lt (.ofInt 12) then { label := "Moderate", color := "#f1c40f" }
  else if v.lt (.ofInt 20) then { label := "High", color := "#e67e22" }
  else { label := "Extreme", color := "#e74c3c" }

/-! ## Form state -/

/-- The `formData` object: a finite map from property names to string values, given by
the lookup function (`none` for a name that is not an own property). -/
abbrev FormData := String → Option String

/-- The 14 keys of the initial `formData`, in declaration order. -/
def fieldNames : List String :=
  ["day", "month", "year", "Temperature", "RH", "Ws", "Rain", "FFMC", "DMC", "DC", "ISI",
   "BUI", "latitude", "longitude"]

/-- The initial `formData`: every one of the 14 keys holds the empty string. -/
def initialFormData : FormData := fun k => if k ∈ fieldNames then some "" else none

/-- The object literal `{ ...prev, [name]: value }`. -/
def setField (prev : FormData) (name value : String) : FormData :=
  fun k => if k = name then some value else prev k

/-- The updater installed by `handleChange` for an event with target `name`, `value`. -/
def handleChange (prev : FormData) (name value : String) : FormData :=
  setField prev name value

/-- How a click on the location button ends: no `navigator.geolocation`, the success
callback with the coordinates of the position, or the error callback. -/
inductive Located where
  | unsupported
  | position (lat lon : JSNum)
  | failed
  deriving DecidableEq

/-- The effect of `getLocation` on `formData`: the success callback installs the updater
`{ ...prev, latitude: lat.toFixed(6), longitude: lon.toFixed(6) }`; the other two
outcomes only raise an alert. -/
def getLocation (prev : FormData) : Located → FormData
  | .position lat lon =>
    setField (setField prev "latitude" (toFixed lat 6)) "longitude" (toFixed lon 6)
  | .unsupported => prev
  | .failed => prev

/-! ## Prediction request -/

/-- The state hooks of `App`. -/
structure AppState where
  formData : FormData
  prediction : Option String
  riskLevel : Option RiskLevel
  loading : Bool
  error : Option String

/-- The state `App` is mounted with. -/
def initialState : AppState :=
  { formData := initialFormData, prediction := none, riskLevel := none, loading := false,
    error := none }

/-- The body of a response, as `res.json()` sees it: not JSON at all, the JSON value
`null`, or any other JSON value, whose property read `data.fwi` yields `fwi`. -/
inductive Body where
  | notJson
  | null
  | value (fwi : JSVal)
  deriving DecidableEq

/-- What the `fetch` of one `handleSubmit` comes back with: a rejected promise, or a
response with its `ok` flag and body. -/
inductive Fetched where
  | rejected
  | response (ok : Bool) (body : Body)
  deriving DecidableEq

/-- The `try` block of `handleSubmit` up to the read of `data.fwi`: `none` when it throws
(rejected `fetch`, `!res.ok`, rejected `res.json()`, property read on `null`). -/
def readFwi : Fetched → Option JSVal
  | .rejected => none
  | .response false _ => none
  | .response true .notJson => none
  | .response true .null => none
  | .response true (.value fwi) => some fwi

/-- The synchronous prefix of `handleSubmit`, up to the first `await`. -/
def submitStart (s : AppState) : AppState :=
  { s with loading := true, prediction := none, riskLevel := none, error := none }

/-- The continuation of `handleSubmit` once the `fetch` has come back: the rest of the
`try` block or the `catch` block, followed by `finally`. -/
def submitSettle (s : AppState) (r : Fetched) : AppState :=
  match readFwi r with
  | some fwi =>
    let fwiVal := toFixed (parseFloat fwi) 2
    { s with prediction := some fwiVal, riskLevel := some (computeRiskLevel (.str fwiVal)),
             loading := false }
  | none => { s with error := some "Prediction failed. Check backend.", loading := false }

/-- One complete `handleSubmit` with nothing else running in between. -/
def handleSubmit (s : AppState) (r : Fetched) : AppState :=
  submitSettle (submitStart s) r

/-! ## Map properties -/

/-- The constant `defaultCenter`, `[20.5937, 78.9629]`. -/
def defaultCenter : JSNum × JSNum :=
  (decimalToDouble false 205937 (-4), decimalToDouble false 789629 (-4))

/-- Truthiness of a property read that yields a string or `undefined`. -/
def truthy : Option String → Bool
  | some s => s ≠ ""
  | none => false

/-- The call `parseFloat(v)` on a property read; `undefined` gives `NaN`. -/
def parseFloatField : Option String → JSNum
  | some s => parseFloatStr s
  | none => .nan

/-- The condition guarding the centre and the marker:
`lat && lon && !isNaN(parseFloat(lat)) && !isNaN(parseFloat(lon))`. -/
def coordsUsable (lat lon : Option String) : Bool :=
  truthy lat && truthy lon && !isNaN (parseFloatField lat) && !isNaN (parseFloatField lon)

/-- What `App` hands to the map: the `center` and `zoom` properties of `MapContainer`
and the position of the `Marker`, if one is rendered. -/
structure MapView where
  center : JSNum × JSNum
  zoom : ℕ
  marker : Option (JSNum × JSNum)
  deriving DecidableEq

/-- The map properties computed from `formData` in the render of `App`. -/
def mapView (fd : FormData) : MapView :=
  let lat := fd "latitude"
  let lon := fd "longitude"
  { center := if coordsUsable lat lon then (parseFloatField lat, parseFloatField lon)
              else defaultCenter,
    zoom := if truthy lat then 12 else 5,
    marker := if coordsUsable lat lon then some (parseFloatField lat, parseFloatField lon)
              else none }

/-! ## Result panel -/

/-- What the result section of the render produces. -/
inductive Panel where
  | hidden
  | shown (fwi color label : String)
  deriving DecidableEq

/-- The result section `{prediction && (...)}`: nothing when `prediction` is falsy,
otherwise a panel reading `riskLevel.color` and `riskLevel.label`, which throws a
`TypeError` (`none`) when `riskLevel` is `null`. -/
def resultPanel (s : AppState) : Option Panel :=
  if truthy s.prediction then
    match s.prediction, s.riskLevel with
    | some p, some r => some (.shown p r.color r.label)
    | _, _ => none
  else some .hidden

/-! ## Event loop -/

/-- The running application: the hook state and the number of `handleSubmit` calls
suspended at an `await`. -/
structure Sys where
  app : AppState
  inFlight : ℕ

/-- The application right after mounting. -/
def Sys.initial : Sys := { app := initialState, inFlight := 0 }

/-- The events the application reacts to. -/
inductive Event where
  /-- a change event of the input named `name` -/
  | change (name value : String)
  /-- a click on the location button, with the way it ends -/
  | locate (r : Located)
  /-- a submit event of the form -/
  | submit
  /-- the `fetch` of a suspended `handleSubmit` comes back -/
  | settle (r : Fetched)

/-- One event; `none` when a `settle` arrives with no call suspended. -/
def step (s : Sys) : Event → Option Sys
  | .change name value =>
    some { s with app := { s.app with formData := handleChange s.app.formData name value } }
  | .locate r =>
    some { s with app := { s.app with formData := getLocation s.app.formData r } }
  | .submit => some { app := submitStart s.app, inFlight := s.inFlight + 1 }
  | .settle r =>
    if s.inFlight = 0 then none
    else some { app := submitSettle s.app r, inFlight := s.inFlight - 1 }

/-- A sequence of events. -/
def run (s : Sys) : List Event → Option Sys
  | [] => some s
  | ev :: evs => (step s ev).bind fun t => run t evs

/-- One event with the submit control honoured: `disabled={loading}` lets no submit
event through while `loading` is set. -/
def stepGuarded (s : Sys) (ev : Event) : Option Sys :=
  match ev with
  | .submit => if s.app.loading then none else step s ev
  | _ => step s ev

/-- A sequence of events with the submit control honoured. -/
def runGuarded (s : Sys) : List Event → Option Sys
  | [] => some s
  | ev :: evs => (stepGuarded s ev).bind fun t => runGuarded t evs

/-- The request lifecycle states. -/
inductive Lifecycle where
  | idle
  | loading
  | success
  | error
  deriving DecidableEq

/-- When a lifecycle state is the active one. -/
def Lifecycle.Active : Lifecycle → AppState → Prop
  | .idle, s => s.loading = false ∧ s.prediction = none ∧ s.error = none
  | .loading, s => s.loading = true ∧ s.prediction = none ∧ s.error = none
  | .success, s => s.loading = false ∧ s.prediction ≠ none ∧ s.error = none
  | .error, s => s.loading = false ∧ s.prediction = none ∧ s.error ≠ none

instance (l : Lifecycle) (s : AppState) : Decidable (l.Active s) := by
  cases l <;> unfold Lifecycle.Active <;> infer_instance

/-! ## Specification vocabulary -/

/-- The invariant of the guarded event loop: either nothing is in flight, `loading` is
clear and a prediction and an error are not both present, or exactly one call is in
flight, `loading` is set and prediction and error are both clear. -/
def LoopInv (s : Sys) : Prop :=
  (s.inFlight = 0 ∧ s.app.loading = false ∧ (s.app.prediction = none ∨ s.app.error = none)) ∨
  (s.inFlight = 1 ∧ s.app.loading = true ∧ s.app.prediction = none ∧ s.app.error = none)

/-- The string `s` writes the decimal `n / 10 ^ f` with exactly `f` fractional digits: a
minus sign when `neg`, then a non-empty run of digits, a point, and `f` digits, the
digits read together being `n`. -/
def WritesFixed (neg : Bool) (n f : ℕ) (s : String) : Prop :=
  ∃ ip fp : List Char,
    s.toList = (if neg then ['-'] else []) ++ ip ++ '.' :: fp ∧
    ip ≠ [] ∧ fp.length = f ∧ (∀ c ∈ ip ++ fp, c.isDigit = true) ∧ digitsToNat (ip ++ fp) = n

/-! ## Numbers: comparison -/

theorem finVal_scale (m e k : ℤ) (h : k ≤ e) :
    finVal m e = ((m * 2 ^ (e - k).toNat : ℤ) : ℚ) * (2 : ℚ) ^ k := by
  unfold finVal
  have h2 : ((e - k).toNat : ℤ) = e - k := Int.toNat_of_nonneg (by omega)
  have h3 : (2 : ℚ) ^ e = (2 : ℚ) ^ (e - k).toNat * (2 : ℚ) ^ k := by
    rw [← zpow_natCast, h2, ← zpow_add₀ (by norm_num : (2 : ℚ) ≠ 0)]
    congr 1
    omega
  rw [h3]
  push_cast
  ring

theorem ltFin_iff (m₁ e₁ m₂ e₂ : ℤ) :
    ltFin m₁ e₁ m₂ e₂ = true ↔ finVal m₁ e₁ < finVal m₂ e₂ := by
  unfold ltFin
  rw [decide_eq_true_iff, finVal_scale m₁ e₁ (min e₁ e₂) (min_le_left _ _),
    finVal_scale m₂ e₂ (min e₁ e₂) (min_le_right _ _)]
  have hpos : (0 : ℚ) < (2 : ℚ) ^ (min e₁ e₂) := zpow_pos (by norm_num) _
  rw [mul_lt_mul_right hpos, Int.cast_lt]

theorem lt_ofInt_iff (m e c : ℤ) :
    (JSNum.fin m e).lt (.ofInt c) = true ↔ finVal m e < c := by
  have h : (JSNum.fin m e).lt (.ofInt c) = ltFin m e c 0 := rfl
  rw [h, ltFin_iff]
  simp [finVal]

/-! ## Risk classifier -/

/-- The classifier on a finite Number, as a cascade over its mathematical value. -/
theorem computeRiskLevel_fin (m e : ℤ) :
    computeRiskLevel (.num (.fin m e)) =
      if finVal m e < 6 then ⟨"Low", "#2ecc71"⟩
      else if finVal m e < 12 then ⟨"Moderate", "#f1c40f"⟩
      else if finVal m e < 20 then ⟨"High", "#e67e22"⟩
      else ⟨"Extreme", "#e74c3c"⟩ := by
  have h6 := lt_ofInt_iff m e 6
  have h12 := lt_ofInt_iff m e 12
  have h20 := lt_ofInt_iff m e 20
  simp only [computeRiskLevel, parseFloat]
  by_cases c6 : finVal m e < 6
  · rw [if_pos (h6.2 (by exact_mod_cast c6)), if_pos c6]
  · have n6 : ¬ (JSNum.fin m e).lt (.ofInt 6) = true := fun h => c6 (by exact_mod_cast h6.1 h)
    rw [if_neg n6, if_neg c6]
    by_cases c12 : finVal m e < 12
    · rw [if_pos (h12.2 (by exact_mod_cast c12)), if_pos c12]
    · have n12 : ¬ (JSNum.fin m e).lt (.ofInt 12) = true :=
        fun h => c12 (by exact_mod_cast h12.1 h)
      rw [if_neg n12, if_neg c12]
      by_cases c20 : finVal m e < 20
      · rw [if_pos (h20.2 (by exact_mod_cast c20)), if_pos c20]
      · have n20 : ¬ (JSNum.fin m e).lt (.ofInt 20) = true :=
          fun h => c20 (by exact_mod_cast h20.1 h)
        rw [if_neg n20, if_neg c20]

/-- C1: on every finite Number `v = m * 2 ^ e`, `computeRiskLevel` returns Low/#2ecc71
exactly when `v < 6`, Moderate/#f1c40f exactly when `6 ≤ v < 12`, High/#e67e22 exactly
when `12 ≤ v < 20` and Extreme/#e74c3c exactly when `20 ≤ v`; and on the literals
`6.0`, `5.999`, `12.0`, `19.999`, `20.0` it returns Moderate, Low, High, High, Extreme. -/
theorem computeRiskLevel_ranges :
    (∀ m e : ℤ,
      (computeRiskLevel (.num (.fin m e)) = ⟨"Low", "#2ecc71"⟩ ↔ finVal m e < 6) ∧
      (computeRiskLevel (.num (.fin m e)) = ⟨"Moderate", "#f1c40f"⟩ ↔
        6 ≤ finVal m e ∧ finVal m e < 12) ∧
      (computeRiskLevel (.num (.fin m e)) = ⟨"High", "#e67e22"⟩ ↔
        12 ≤ finVal m e ∧ finVal m e < 20) ∧
      (computeRiskLevel (.num (.fin m e)) = ⟨"Extreme", "#e74c3c"⟩ ↔ 20 ≤ finVal m e)) ∧
    computeRiskLevel (.num (decimalToDouble false 60 (-1))) = ⟨"Moderate", "#f1c40f"⟩ ∧
    computeRiskLevel (.num (decimalToDouble false 5999 (-3))) = ⟨"Low", "#2ecc71"⟩ ∧
    computeRiskLevel (.num (decimalToDouble false 120 (-1))) = ⟨"High", "#e67e22"⟩ ∧
    computeRiskLevel (.num (decimalToDouble false 19999 (-3))) = ⟨"High", "#e67e22"⟩ ∧
    computeRiskLevel (.num (decimalToDouble false 200 (-1))) = ⟨"Extreme", "#e74c3c"⟩ := by
  refine ⟨fun m e => ?_, by decide, by decide, by decide, by decide, by decide⟩
  rw [computeRiskLevel_fin]
  have d1 : (⟨"Low", "#2ecc71"⟩ : RiskLevel) ≠ ⟨"Moderate", "#f1c40f"⟩ := by decide
  have d2 : (⟨"Low", "#2ecc71"⟩ : RiskLevel) ≠ ⟨"High", "#e67e22"⟩ := by decide
  have d3 : (⟨"Low", "#2ecc71"⟩ : RiskLevel) ≠ ⟨"Extreme", "#e74c3c"⟩ := by decide
  have d4 : (⟨"Moderate", "#f1c40f"⟩ : RiskLevel) ≠ ⟨"High", "#e67e22"⟩ := by decide
  have d5 : (⟨"Moderate", "#f1c40f"⟩ : RiskLevel) ≠ ⟨"Extreme", "#e74c3c"⟩ := by decide
  have d6 : (⟨"High", "#e67e22"⟩ : RiskLevel) ≠ ⟨"Extreme", "#e74c3c"⟩ := by decide
  by_cases c6 : finVal m e < 6
  · have : finVal m e < 12 := by linarith
    have : finVal m e < 20 := by linarith
    simp only [if_pos c6]
    refine ⟨⟨fun _ => c6, fun _ => trivial⟩, ⟨fun h => absurd h d1, fun h => absurd c6 (not_lt.2 h.1)⟩,
      ⟨fun h => absurd h d2, fun h => absurd c6 (not_lt.2 (by linarith [h.1]))⟩,
      ⟨fun h => absurd h d3, fun h => absurd c6 (not_lt.2 (by linarith))⟩⟩
  · simp only [if_neg c6]
    by_cases c12 : finVal m e < 12
    · simp only [if_pos c12]
      refine ⟨⟨fun h => absurd h.symm d1, fun h => absurd h c6⟩,
        ⟨fun _ => ⟨not_lt.1 c6, c12⟩, fun _ => trivial⟩,
        ⟨fun h => absurd h d4, fun h => absurd c12 (not_lt.2 h.1)⟩,
        ⟨fun h => absurd h d5, fun h => absurd c12 (not_lt.2 (by linarith))⟩⟩
    · simp only [if_neg c12]
      by_cases c20 : finVal m e < 20
      · simp only [if_pos c20]
        refine ⟨⟨fun h => absurd h.symm d2, fun h => absurd h c6⟩,
          ⟨fun h => absurd h.symm d4, fun h => absurd h.2 c12⟩,
          ⟨fun _ => ⟨not_lt.1 c12, c20⟩, fun _ => trivial⟩,
          ⟨fun h => absurd h d6, fun h => absurd c20 (not_lt.2 h)⟩⟩
      · simp only [if_neg c20]
        refine ⟨⟨fun h => absurd h.symm d3, fun h => absurd h c6⟩,
          ⟨fun h => absurd h.symm d5, fun h => absurd h.2 c12⟩,
          ⟨fun h => absurd h.symm d6, fun h => absurd h.2 c20⟩,
          ⟨fun _ => not_lt.1 c20, fun _ => trivial⟩⟩

/-! ## Form state -/

/-- C4: for every form state, every one of the 14 fixed keys `k` and every string `x`,
the form state after `handleChange` with name `k` and value `x` holds exactly `x` under
`k` and the previous value under every other key. -/
theorem handleChange_fixed_key (fd : FormData) (x : String) :
    ∀ k ∈ fieldNames,
      handleChange fd k x k = some x ∧
      ∀ k2 : String, k2 ≠ k → handleChange fd k x k2 = fd k2 := by
  intro k _
  refine ⟨by simp [handleChange, setField], fun k2 h2 => ?_⟩
  simp [handleChange, setField, h2]

theorem handleChange_fixed_key_witness :
    "RH" ∈ fieldNames ∧
    (handleChange initialFormData "RH" "45" "RH" = some "45" ∧
      ∀ k2 : String, k2 ≠ "RH" → handleChange initialFormData "RH" "45" k2 = initialFormData k2) :=
  ⟨by decide, handleChange_fixed_key initialFormData "45" "RH" (by decide)⟩

/-- C5, as stated, fails: `handleChange` with the name `elevation`, which is not one of
the 14 fixed keys, is not a no-op on the initial form state: the name was absent before
and holds the value afterwards. -/
theorem handleChange_unknown_key_not_noop :
    "elevation" ∉ fieldNames ∧
    initialFormData "elevation" = none ∧
    handleChange initialFormData "elevation" "120" "elevation" = some "120" ∧
    handleChange initialFormData "elevation" "120" ≠ initialFormData := by
  refine ⟨by decide, by decide, by decide, fun h => ?_⟩
  have h2 := congrFun h "elevation"
  revert h2
  decide

/-- C5, amended: for every form state, every field name that is not one of the 14 fixed
keys and every value, `handleChange` stores the value under that name as an additional
entry and leaves the value under every other key, in particular under each of the 14
fixed keys, as it was. -/
theorem handleChange_unknown_key (fd : FormData) (name value : String)
    (hname : name ∉ fieldNames) :
    handleChange fd name value name = some value ∧
    (∀ k : String, k ≠ name → handleChange fd name value k = fd k) ∧
    (∀ k ∈ fieldNames, handleChange fd name value k = fd k) := by
  refine ⟨by simp [handleChange, setField], fun k hk => by simp [handleChange, setField, hk],
    fun k hk => ?_⟩
  have hne : k ≠ name := fun h => hname (h ▸ hk)
  simp [handleChange, setField, hne]

theorem handleChange_unknown_key_witness :
    "elevation" ∉ fieldNames ∧
    (handleChange initialFormData "elevation" "120" "elevation" = some "120" ∧
      (∀ k : String, k ≠ "elevation" →
        handleChange initialFormData "elevation" "120" k = initialFormData k) ∧
      (∀ k ∈ fieldNames, handleChange initialFormData "elevation" "120" k = initialFormData k)) :=
  ⟨by decide, handleChange_unknown_key initialFormData "elevation" "120" (by decide)⟩

/-! ## Failed prediction calls -/

/-- C3: for every state and every failing outcome of the prediction call (a rejected
`fetch`, a response whose status is not a success whatever its body, a body that is not
JSON, a `null` body), after `handleSubmit` the error notice is the fixed message,
`prediction` and `riskLevel` are both absent, `loading` is false and the form state is
untouched. -/
theorem handleSubmit_failure (s : AppState) (body : Body) :
    ∀ r : Fetched,
      (r = .rejected ∨ r = .response false body ∨ r = .response true .notJson ∨
        r = .response true .null) →
      (handleSubmit s r).error = some "Prediction failed. Check backend." ∧
      (handleSubmit s r).prediction = none ∧
      (handleSubmit s r).riskLevel = none ∧
      (handleSubmit s r).loading = false ∧
      (handleSubmit s r).formData = s.formData := by
  intro r hr
  have hfwi : readFwi r = none := by
    rcases hr with h | h | h | h <;> subst h <;> rfl
  simp [handleSubmit, submitSettle, submitStart, hfwi]

theorem handleSubmit_failure_witness :
    (handleSubmit initialState (.response false (.value (.str "5.50")))).error =
        some "Prediction failed. Check backend." ∧
      (handleSubmit initialState (.response false (.value (.str "5.50")))).prediction = none ∧
      (handleSubmit initialState (.response false (.value (.str "5.50")))).riskLevel = none ∧
      (handleSubmit initialState (.response false (.value (.str "5.50")))).loading = false ∧
      (handleSubmit initialState (.response false (.value (.str "5.50")))).formData =
        initialState.formData :=
  handleSubmit_failure initialState (.value (.str "5.50")) _ (Or.inr (Or.inl rfl))

/-! ## Map properties -/

/-- C7, as stated, fails twice.  With latitude `Infinity` and longitude `Infinity`
neither field parses to a finite number, yet the centre is not the default and a marker
is rendered.  With latitude `abc` and an empty longitude the centre is the default and
there is no marker, but the zoom is 12, not 5. -/
theorem mapView_default_counterexample :
    (parseFloatStr "Infinity" = .inf false ∧
      (mapView (setField (setField initialFormData "latitude" "Infinity")
        "longitude" "Infinity")).center = (.inf false, .inf false) ∧
      (mapView (setField (setField initialFormData "latitude" "Infinity")
        "longitude" "Infinity")).center ≠ defaultCenter ∧
      (mapView (setField (setField initialFormData "latitude" "Infinity")
        "longitude" "Infinity")).marker = some (.inf false, .inf false)) ∧
    (parseFloatStr "abc" = .nan ∧
      (mapView (setField (setField initialFormData "latitude" "abc") "longitude" "")).center =
        defaultCenter ∧
      (mapView (setField (setField initialFormData "latitude" "abc") "longitude" "")).marker =
        none ∧
      (mapView (setField (setField initialFormData "latitude" "abc") "longitude" "")).zoom =
        12) := by
  decide

/-- C7, amended: for every form state whose latitude and longitude fields hold `lat` and
`lon`, if at least one of them is the empty string or parses to `NaN`, the map view has
the default centre (20.5937, 78.9629) and no marker; and if `lat` is the empty string the
zoom level is 5. -/
theorem mapView_default (fd : FormData) (lat lon : String)
    (hlat : fd "latitude" = some lat) (hlon : fd "longitude" = some lon)
    (h : lat = "" ∨ lon = "" ∨ isNaN (parseFloatStr lat) = true ∨
      isNaN (parseFloatStr lon) = true) :
    (mapView fd).center = defaultCenter ∧
    defaultCenter = (decimalToDouble false 205937 (-4), decimalToDouble false 789629 (-4)) ∧
    (mapView fd).marker = none ∧
    (lat = "" → (mapView fd).zoom = 5) := by
  have hu : coordsUsable (some lat) (some lon) = false := by
    rcases h with h | h | h | h <;> simp [coordsUsable, truthy, parseFloatField, h]
  refine ⟨?_, rfl, ?_, fun h0 => ?_⟩
  · simp [mapView, hlat, hlon, hu]
  · simp [mapView, hlat, hlon, hu]
  · simp [mapView, hlat, truthy, h0]

theorem mapView_default_witness :
    (mapView (setField initialFormData "longitude" "77.2")).center = defaultCenter ∧
    defaultCenter = (decimalToDouble false 205937 (-4), decimalToDouble false 789629 (-4)) ∧
    (mapView (setField initialFormData "longitude" "77.2")).marker = none ∧
    (("" : String) = "" → (mapView (setField initialFormData "longitude" "77.2")).zoom = 5) :=
  mapView_default (setField initialFormData "longitude" "77.2") "" "77.2" (by decide)
    (by decide) (Or.inl rfl)

/-! ## Two overlapping submissions -/

/-- C9, as stated, fails: with two calls started back to back from the initial state, the
first settling with `fwi` `5.50` and the second with a failure, the final state keeps the
prediction and risk level written by the earlier resolution next to the error notice of
the later one, whereas the later resolution alone leaves no prediction. -/
theorem overlapping_submits_counterexample :
    (submitSettle (submitSettle (submitStart (submitStart initialState))
        (.response true (.value (.str "5.50")))) (.response false .null)).prediction =
      some "5.50" ∧
    (submitSettle (submitSettle (submitStart (submitStart initialState))
        (.response true (.value (.str "5.50")))) (.response false .null)).riskLevel =
      some ⟨"Low", "#2ecc71"⟩ ∧
    (submitSettle (submitSettle (submitStart (submitStart initialState))
        (.response true (.value (.str "5.50")))) (.response false .null)).error =
      some "Prediction failed. Check backend." ∧
    (handleSubmit initialState (.response false .null)).prediction = none ∧
    (handleSubmit initialState (.response false .null)).riskLevel = none := by
  decide

/-- C9, amended: for every two `handleSubmit` calls started back to back before the first
resolves and every pair of outcomes, `r₁` resolving first and `r₂` second, once both have
resolved `loading` is false, the prediction and risk level are those of the later
resolution if it succeeded and otherwise those of the earlier one, and the error notice
is that of the later resolution if it failed and otherwise that of the earlier one.  So
when both outcomes are successes, or both are failures, the three are exactly what the
later resolution alone produces. -/
theorem overlapping_submits (s : AppState) (r₁ r₂ : Fetched) :
    (submitSettle (submitSettle (submitStart (submitStart s)) r₁) r₂).loading = false ∧
    (submitSettle (submitSettle (submitStart (submitStart s)) r₁) r₂).prediction =
      ((handleSubmit s r₂).prediction.orElse fun _ => (handleSubmit s r₁).prediction) ∧
    (submitSettle (submitSettle (submitStart (submitStart s)) r₁) r₂).riskLevel =
      ((handleSubmit s r₂).riskLevel.orElse fun _ => (handleSubmit s r₁).riskLevel) ∧
    (submitSettle (submitSettle (submitStart (submitStart s)) r₁) r₂).error =
      ((handleSubmit s r₂).error.orElse fun _ => (handleSubmit s r₁).error) ∧
    ((readFwi r₁).isSome = (readFwi r₂).isSome →
      (submitSettle (submitSettle (submitStart (submitStart s)) r₁) r₂).prediction =
        (handleSubmit s r₂).prediction ∧
      (submitSettle (submitSettle (submitStart (submitStart s)) r₁) r₂).riskLevel =
        (handleSubmit s r₂).riskLevel ∧
      (submitSettle (submitSettle (submitStart (submitStart s)) r₁) r₂).error =
        (handleSubmit s r₂).error) := by
  cases h₁ : readFwi r₁ <;> cases h₂ : readFwi r₂ <;>
    simp [handleSubmit, submitSettle, submitStart, h₁, h₂]

/-! ## Request lifecycle -/

theorem stepGuarded_invariant (s t : Sys) (ev : Event) (h : stepGuarded s ev = some t)
    (inv : LoopInv s) : LoopInv t := by
  unfold LoopInv at inv ⊢
  cases ev with
  | change name value =>
    simp only [stepGuarded, step, Option.some.injEq] at h
    subst h
    exact inv
  | locate r =>
    simp only [stepGuarded, step, Option.some.injEq] at h
    subst h
    exact inv
  | submit =>
    rcases inv with ⟨h0, hl, _⟩ | ⟨_, hl, _, _⟩
    · simp only [stepGuarded, hl, step] at h
      simp only [Bool.false_eq_true, if_false, Option.some.injEq] at h
      subst h
      right
      simp [submitStart, h0]
    · simp [stepGuarded, hl] at h
  | settle r =>
    rcases inv with ⟨h0, _, _⟩ | ⟨h1, _, hp, he⟩
    · simp [stepGuarded, step, h0] at h
    · simp only [stepGuarded, step, h1] at h
      simp only [one_ne_zero, if_false, Option.some.injEq] at h
      subst h
      left
      cases hr : readFwi r <;> simp [submitSettle, hr, hp, he]

theorem runGuarded_invariant (evs : List Event) :
    ∀ s t : Sys, runGuarded s evs = some t → LoopInv s → LoopInv t := by
  induction evs with
  | nil =>
    intro s t h inv
    simp only [runGuarded, Option.some.injEq] at h
    subst h
    exact inv
  | cons ev evs ih =>
    intro s t h inv
    simp only [runGuarded] at h
    cases hs : stepGuarded s ev with
    | none => simp [hs] at h
    | some u =>
      rw [hs] at h
      exact ih u t h (stepGuarded_invariant s u ev hs inv)

/-- C8: in every state reached from the initial one by events in which a submit is only
issued while `loading` is clear, exactly one lifecycle state is active (Idle, Loading,
Success or Error, as defined by `Lifecycle.Active`); and whenever `loading` is clear,
that is from Idle, Success or Error, a submit is accepted and leads to Loading with
prediction, risk level and error all cleared. -/
theorem lifecycle_exactly_one (evs : List Event) (s : Sys)
    (h : runGuarded Sys.initial evs = some s) :
    (∃! l : Lifecycle, l.Active s.app) ∧
    (s.app.loading = false →
      ∃ t : Sys, stepGuarded s .submit = some t ∧ Lifecycle.Active .loading t.app ∧
        t.app.prediction = none ∧ t.app.riskLevel = none ∧ t.app.error = none) := by
  have inv : LoopInv s := runGuarded_invariant evs Sys.initial s h (Or.inl ⟨rfl, rfl, Or.inl rfl⟩)
  constructor
  · rcases inv with ⟨_, hl, hpe⟩ | ⟨_, hl, hp, he⟩
    · cases hp : s.app.prediction with
      | none =>
        cases he : s.app.error with
        | none =>
          refine ⟨.idle, ⟨hl, hp, he⟩, fun l hl2 => ?_⟩
          cases l <;> simp_all [Lifecycle.Active]
        | some msg =>
          refine ⟨.error, ⟨hl, hp, by simp [he]⟩, fun l hl2 => ?_⟩
          cases l <;> simp_all [Lifecycle.Active]
      | some p =>
        have he : s.app.error = none := by
          rcases hpe with h1 | h1
          · simp [hp] at h1
          · exact h1
        refine ⟨.success, ⟨hl, by simp [hp], he⟩, fun l hl2 => ?_⟩
        cases l <;> simp_all [Lifecycle.Active]
    · refine ⟨.loading, ⟨hl, hp, he⟩, fun l hl2 => ?_⟩
      cases l <;> simp_all [Lifecycle.Active]
  · intro hl
    refine ⟨{ app := submitStart s.app, inFlight := s.inFlight + 1 }, ?_, ?_⟩
    · simp [stepGuarded, step, hl]
    · simp [Lifecycle.Active, submitStart]

theorem lifecycle_exactly_one_witness :
    runGuarded Sys.initial [.submit, .settle (.response true (.value (.str "13.2")))] =
        some { app := { formData := initialFormData, prediction := some "13.20",
                        riskLevel := some ⟨"High", "#e67e22"⟩, loading := false,
                        error := none },
               inFlight := 0 } ∧
      ((∃! l : Lifecycle, l.Active
          { formData := initialFormData, prediction := some "13.20",
            riskLevel := some ⟨"High", "#e67e22"⟩, loading := false, error := none }) ∧
        ((false : Bool) = false →
          ∃ t : Sys, stepGuarded
              { app := { formData := initialFormData, prediction := some "13.20",
                         riskLevel := some ⟨"High", "#e67e22"⟩, loading := false,
                         error := none },
                inFlight := 0 } .submit = some t ∧
            Lifecycle.Active .loading t.app ∧
            t.app.prediction = none ∧ t.app.riskLevel = none ∧ t.app.error = none)) :=
  ⟨rfl, lifecycle_exactly_one
    [.submit, .settle (.response true (.value (.str "13.2")))] _ rfl⟩

/-! ## Result panel -/

theorem step_prediction_risk (s t : Sys) (ev : Event) (h : step s ev = some t)
    (inv : s.app.prediction.isSome = s.app.riskLevel.isSome) :
    t.app.prediction.isSome = t.app.riskLevel.isSome := by
  cases ev with
  | change name value =>
    simp only [step, Option.some.injEq] at h
    subst h
    exact inv
  | locate r =>
    simp only [step, Option.some.injEq] at h
    subst h
    exact inv
  | submit =>
    simp only [step, Option.some.injEq] at h
    subst h
    rfl
  | settle r =>
    simp only [step] at h
    split at h
    · exact absurd h (by simp)
    · simp only [Option.some.injEq] at h
      subst h
      cases hr : readFwi r <;> simp [submitSettle, hr, inv]

theorem run_prediction_risk (evs : List Event) :
    ∀ s t : Sys, run s evs = some t →
      s.app.prediction.isSome = s.app.riskLevel.isSome →
      t.app.prediction.isSome = t.app.riskLevel.isSome := by
  induction evs with
  | nil =>
    intro s t h inv
    simp only [run, Option.some.injEq] at h
    subst h
    exact inv
  | cons ev evs ih =>
    intro s t h inv
    simp only [run] at h
    cases hs : step s ev with
    | none => simp [hs] at h
    | some u =>
      rw [hs] at h
      exact ih u t h (step_prediction_risk s u ev hs inv)

/-- C10: in every state reached from the initial one by any sequence of input changes,
geolocation callbacks, submit starts and submit resolutions, `prediction` is present if
and only if `riskLevel` is present, and the result panel renders without reading a
property of an absent risk level. -/
theorem prediction_iff_riskLevel (evs : List Event) (s : Sys)
    (h : run Sys.initial evs = some s) :
    (s.app.prediction.isSome ↔ s.app.riskLevel.isSome) ∧ resultPanel s.app ≠ none := by
  have inv := run_prediction_risk evs Sys.initial s h rfl
  refine ⟨by rw [inv], ?_⟩
  unfold resultPanel
  cases hp : s.app.prediction with
  | none => simp [truthy]
  | some p =>
    cases hr : s.app.riskLevel with
    | none => simp [hp, hr] at inv
    | some r => by_cases ht : truthy (some p) = true <;> simp [ht]

theorem prediction_iff_riskLevel_witness :
    run Sys.initial [.submit, .change "RH" "40", .submit,
        .settle (.response true (.value (.str "5.50"))), .settle .rejected] =
      some { app := { formData := handleChange initialFormData "RH" "40",
                      prediction := some "5.50", riskLevel := some ⟨"Low", "#2ecc71"⟩,
                      loading := false, error := some "Prediction failed. Check backend." },
             inFlight := 0 } ∧
    ((Option.isSome (some "5.50") ↔ Option.isSome (some (⟨"Low", "#2ecc71"⟩ : RiskLevel))) ∧
      resultPanel { formData := handleChange initialFormData "RH" "40",
                    prediction := some "5.50", riskLevel := some ⟨"Low", "#2ecc71"⟩,
                    loading := false, error := some "Prediction failed. Check backend." } ≠
        none) :=
  ⟨rfl, prediction_iff_riskLevel
    [.submit, .change "RH" "40", .submit,
      .settle (.response true (.value (.str "5.50"))), .settle .rejected] _ rfl⟩

/-! ## Decimal digits -/

theorem digitChar_spec : ∀ k : Fin 10,
    (Nat.digitChar k.val).isDigit = true ∧ (Nat.digitChar k.val).toNat - 48 = k.val := by
  decide

theorem digitsToNat_append_single (l : List Char) (c : Char) :
    digitsToNat (l ++ [c]) = 10 * digitsToNat l + (c.toNat - 48) := by
  simp [digitsToNat, List.foldl_append]

theorem toDigitsCore_spec (fuel : ℕ) :
    ∀ (n : ℕ) (ds : List Char), n < fuel →
      ∃ l : List Char, Nat.toDigitsCore 10 fuel n ds = l ++ ds ∧ l ≠ [] ∧
        (∀ c ∈ l, c.isDigit = true) ∧ digitsToNat l = n := by
  induction fuel with
  | zero => intro n ds h; omega
  | succ fuel ih =>
    intro n ds hn
    have hd := digitChar_spec ⟨n % 10, Nat.mod_lt _ (by norm_num)⟩
    simp only at hd
    by_cases h0 : n / 10 = 0
    · refine ⟨[Nat.digitChar (n % 10)], by simp [Nat.toDigitsCore, h0], by simp, ?_, ?_⟩
      · intro c hc
        rw [List.mem_singleton] at hc
        rw [hc]; exact hd.1
      · have : digitsToNat [Nat.digitChar (n % 10)] = (Nat.digitChar (n % 10)).toNat - 48 := by
          simp [digitsToNat]
        rw [this, hd.2]
        omega
    · have hlt : n / 10 < fuel := by omega
      obtain ⟨l, hl, _, hdig, hval⟩ := ih (n / 10) (Nat.digitChar (n % 10) :: ds) hlt
      refine ⟨l ++ [Nat.digitChar (n % 10)], ?_, by simp, ?_, ?_⟩
      · simp [Nat.toDigitsCore, h0, hl]
      · intro c hc
        rcases List.mem_append.1 hc with h | h
        · exact hdig c h
        · rw [List.mem_singleton] at h
          rw [h]; exact hd.1
      · rw [digitsToNat_append_single, hval, hd.2]
        omega

theorem toDigits_spec (n : ℕ) :
    Nat.toDigits 10 n ≠ [] ∧ (∀ c ∈ Nat.toDigits 10 n, c.isDigit = true) ∧
      digitsToNat (Nat.toDigits 10 n) = n := by
  obtain ⟨l, hl, hne, hdig, hval⟩ := toDigitsCore_spec (n + 1) n [] (Nat.lt_succ_self n)
  have : Nat.toDigits 10 n = l := by simp [Nat.toDigits, hl]
  rw [this]
  exact ⟨hne, hdig, hval⟩

theorem foldl_digits_zeros (l : List Char) (z : ℕ) :
    List.foldl (fun acc c => 10 * acc + (c.toNat - 48)) 0 (List.replicate z '0' ++ l) =
      List.foldl (fun acc c => 10 * acc + (c.toNat - 48)) 0 l := by
  induction z with
  | zero => simp
  | succ z ih =>
    simp only [List.replicate_succ, List.cons_append, List.foldl_cons]
    exact ih

theorem digitsToNat_zeros (z : ℕ) (l : List Char) :
    digitsToNat (List.replicate z '0' ++ l) = digitsToNat l :=
  foldl_digits_zeros l z

/-- The output of `fixedDigits` for `f ≠ 0`: integer digits, a point, `f` digits. -/
theorem fixedDigits_spec (n f : ℕ) (hf : f ≠ 0) :
    ∃ ip fp : List Char, fixedDigits n f = ip ++ '.' :: fp ∧ ip ≠ [] ∧ fp.length = f ∧
      (∀ c ∈ ip ++ fp, c.isDigit = true) ∧ digitsToNat (ip ++ fp) = n := by
  obtain ⟨hne, hdig, hval⟩ := toDigits_spec n
  have hlen : 0 < (Nat.toDigits 10 n).length := List.length_pos.2 hne
  -- the padded digit list
  obtain ⟨p, hp, hplen, hpdig, hpval⟩ : ∃ p : List Char,
      p = (if (Nat.toDigits 10 n).length ≤ f then
            List.replicate (f + 1 - (Nat.toDigits 10 n).length) '0' ++ Nat.toDigits 10 n
          else Nat.toDigits 10 n) ∧
      f < p.length ∧ (∀ c ∈ p, c.isDigit = true) ∧ digitsToNat p = n := by
    refine ⟨_, rfl, ?_, ?_, ?_⟩
    · split
      · simp only [List.length_append, List.length_replicate]; omega
      · omega
    · intro c hc
      split at hc
      · rcases List.mem_append.1 hc with h | h
        · rw [(List.mem_replicate.1 h).2]; decide
        · exact hdig c h
      · exact hdig c hc
    · split
      · rw [digitsToNat_zeros, hval]
      · exact hval
  refine ⟨p.take (p.length - f), p.drop (p.length - f), ?_, ?_, ?_, ?_, ?_⟩
  · simp only [fixedDigits, hf, ne_eq, not_false_eq_true, if_true]
    rw [← hp]
  · intro h
    have := congrArg List.length h
    simp only [List.length_take, List.length_nil] at this
    omega
  · simp only [List.length_drop]; omega
  · rw [List.take_append_drop]; exact hpdig
  · rw [List.take_append_drop]; exact hpval

/-! ## Rounding in `toFixed` -/

theorem two_zpow_of_nonneg (e : ℤ) (h : 0 ≤ e) : (2 : ℚ) ^ e = ((2 ^ e.toNat : ℕ) : ℚ) := by
  have h2 : (e.toNat : ℤ) = e := Int.toNat_of_nonneg h
  rw [Nat.cast_pow, ← zpow_natCast, h2]
  norm_num

theorem two_zpow_of_neg (e : ℤ) (h : e < 0) :
    (2 : ℚ) ^ e = 1 / ((2 ^ (-e).toNat : ℕ) : ℚ) := by
  have h2 : ((-e).toNat : ℤ) = -e := Int.toNat_of_nonneg (by omega)
  rw [Nat.cast_pow, ← zpow_natCast, h2, zpow_neg]
  norm_num

theorem abs_finVal (m e : ℤ) : |finVal m e| = (m.natAbs : ℚ) * (2 : ℚ) ^ e := by
  unfold finVal
  rw [abs_mul, abs_of_pos (zpow_pos (by norm_num : (0 : ℚ) < 2) e), Nat.cast_natAbs,
    Int.cast_abs]

theorem finVal_neg_iff (m e : ℤ) : finVal m e < 0 ↔ m < 0 := by
  unfold finVal
  have hpos : (0 : ℚ) < (2 : ℚ) ^ e := zpow_pos (by norm_num) e
  constructor
  · intro h
    by_contra hm
    have : (0 : ℚ) ≤ (m : ℚ) := by exact_mod_cast not_lt.1 hm
    have := mul_nonneg this hpos.le
    linarith
  · intro h
    have : (m : ℚ) < 0 := by exact_mod_cast h
    exact mul_neg_of_neg_of_pos this hpos

theorem geScaled_iff (a : ℕ) (e : ℤ) (c : ℕ) :
    geScaled a e c = true ↔ (c : ℚ) ≤ (a : ℚ) * (2 : ℚ) ^ e := by
  unfold geScaled
  by_cases h : 0 ≤ e
  · rw [if_pos h, decide_eq_true_iff, two_zpow_of_nonneg e h]
    exact_mod_cast Iff.rfl
  · rw [if_neg h, decide_eq_true_iff, two_zpow_of_neg e (by omega)]
    have hpos : (0 : ℚ) < ((2 ^ (-e).toNat : ℕ) : ℚ) := by positivity
    rw [mul_one_div, le_div_iff₀ hpos]
    exact_mod_cast Iff.rfl

theorem roundScaled_eq (a : ℕ) (e : ℤ) (f : ℕ) :
    roundScaled a e f = ⌊(a : ℚ) * (2 : ℚ) ^ e * 10 ^ f + 1 / 2⌋₊ := by
  unfold roundScaled
  by_cases h : 0 ≤ e
  · rw [if_pos h, two_zpow_of_nonneg e h]
    have : ((a : ℚ) * ((2 ^ e.toNat : ℕ) : ℚ) * 10 ^ f + 1 / 2) =
        ((a * 2 ^ e.toNat * 10 ^ f : ℕ) : ℚ) + 1 / 2 := by push_cast; ring
    rw [this]
    symm
    rw [Nat.floor_eq_iff (by positivity)]
    constructor <;> norm_num
  · rw [if_neg h, two_zpow_of_neg e (by omega)]
    have hpos : (0 : ℚ) < ((2 ^ (-e).toNat : ℕ) : ℚ) := by positivity
    have : ((a : ℚ) * (1 / ((2 ^ (-e).toNat : ℕ) : ℚ)) * 10 ^ f + 1 / 2) =
        ((2 * (a * 10 ^ f) + 2 ^ (-e).toNat : ℕ) : ℚ) / ((2 * 2 ^ (-e).toNat : ℕ) : ℚ) := by
      push_cast
      field_simp
      ring
    rw [this, Nat.floor_div_eq_div]

/-- The output of `toFixed` on a finite Number of magnitude below `10 ^ 21`, for `f ≠ 0`:
the magnitude scaled by `10 ^ f` and rounded to the nearest integer (a tie goes up),
written with exactly `f` fractional digits after the sign of the Number. -/
theorem toFixed_fin (m e : ℤ) (f : ℕ) (hf : f ≠ 0) (hlt : |finVal m e| < 10 ^ 21) :
    WritesFixed (decide (finVal m e < 0)) ⌊|finVal m e| * 10 ^ f + 1 / 2⌋₊ f
      (toFixed (.fin m e) f) := by
  have hge : geScaled m.natAbs e (10 ^ 21) = false := by
    rw [Bool.eq_false_iff]
    intro h
    rw [geScaled_iff, ← abs_finVal] at h
    have : ((10 ^ 21 : ℕ) : ℚ) = 10 ^ 21 := by norm_num
    rw [this] at h
    exact absurd hlt (not_lt.2 h)
  obtain ⟨ip, fp, hfix, hne, hlen, hdig, hval⟩ := fixedDigits_spec (roundScaled m.natAbs e f) f hf
  refine ⟨ip, fp, ?_, hne, hlen, hdig, ?_⟩
  · simp only [toFixed, hge, Bool.false_eq_true, if_false, hfix]
    by_cases hm : m < 0
    · have : finVal m e < 0 := (finVal_neg_iff m e).2 hm
      simp [hm, this]
    · have : ¬ finVal m e < 0 := fun h => hm ((finVal_neg_iff m e).1 h)
      simp [hm, this]
  · rw [hval, roundScaled_eq, abs_finVal]

/-! ## Successful prediction calls -/

/-- C2, as stated, fails: the `fwi` value `1e21` parses to the finite number `10 ^ 21`,
and the stored prediction is then `1e+21`, which is not a decimal with two fractional
digits. -/
theorem handleSubmit_success_counterexample :
    parseFloat (.str "1e21") = .fin 7629394531250000 17 ∧
    finVal 7629394531250000 17 = 10 ^ 21 ∧
    (handleSubmit initialState (.response true (.value (.str "1e21")))).prediction =
      some "1e+21" ∧
    ∀ (neg : Bool) (n : ℕ), ¬ WritesFixed neg n 2 "1e+21" := by
  refine ⟨by decide, by norm_num [finVal], by decide, ?_⟩
  rintro neg n ⟨ip, fp, h, -⟩
  have hmem : '.' ∈ "1e+21".toList := by
    rw [h]
    simp
  revert hmem
  decide

/-- C2, amended: for every successful response whose `fwi` field parses to a finite
number `x` of magnitude below `10 ^ 21`, after `handleSubmit` the stored prediction is
`x` rounded to 2 decimal places (the magnitude times 100 rounded to the nearest integer,
a tie going up) written with exactly two fractional digits, the stored risk level is
`computeRiskLevel` applied to that stored string, not to `x`, the error is absent and
`loading` is false.  So `fwi` `5.50` gives `5.50` with Low, `13.2` gives `13.20` with
High, and `5.996`, itself below 6, gives `6.00` with Moderate. -/
theorem handleSubmit_success (s : AppState) (fwi : JSVal) (m e : ℤ)
    (hparse : parseFloat fwi = .fin m e) (hlt : |finVal m e| < 10 ^ 21) :
    (∃ p : String,
      (handleSubmit s (.response true (.value fwi))).prediction = some p ∧
      WritesFixed (decide (finVal m e < 0)) ⌊|finVal m e| * 10 ^ 2 + 1 / 2⌋₊ 2 p ∧
      (handleSubmit s (.response true (.value fwi))).riskLevel =
        some (computeRiskLevel (.str p))) ∧
    (handleSubmit s (.response true (.value fwi))).error = none ∧
    (handleSubmit s (.response true (.value fwi))).loading = false ∧
    ((handleSubmit s (.response true (.value (.str "5.50")))).prediction = some "5.50" ∧
      (handleSubmit s (.response true (.value (.str "5.50")))).riskLevel =
        some ⟨"Low", "#2ecc71"⟩) ∧
    ((handleSubmit s (.response true (.value (.str "13.2")))).prediction = some "13.20" ∧
      (handleSubmit s (.response true (.value (.str "13.2")))).riskLevel =
        some ⟨"High", "#e67e22"⟩) ∧
    ((handleSubmit s (.response true (.value (.str "5.996")))).prediction = some "6.00" ∧
      (handleSubmit s (.response true (.value (.str "5.996")))).riskLevel =
        some ⟨"Moderate", "#f1c40f"⟩ ∧
      computeRiskLevel (.str "5.996") = ⟨"Low", "#2ecc71"⟩) := by
  refine ⟨⟨toFixed (.fin m e) 2, ?_, toFixed_fin m e 2 (by norm_num) hlt, ?_⟩, rfl, rfl,
    ⟨?_, ?_⟩, ⟨?_, ?_⟩, ⟨?_, ?_, by decide⟩⟩
  · simp [handleSubmit, submitSettle, readFwi, hparse]
  · simp [handleSubmit, submitSettle, readFwi, hparse]
  · have h : toFixed (parseFloat (.str "5.50")) 2 = "5.50" := by decide
    simp [handleSubmit, submitSettle, readFwi, h]
  · have h : toFixed (parseFloat (.str "5.50")) 2 = "5.50" := by decide
    have h2 : computeRiskLevel (.str "5.50") = ⟨"Low", "#2ecc71"⟩ := by decide
    simp [handleSubmit, submitSettle, readFwi, h, h2]
  · have h : toFixed (parseFloat (.str "13.2")) 2 = "13.20" := by decide
    simp [handleSubmit, submitSettle, readFwi, h]
  · have h : toFixed (parseFloat (.str "13.2")) 2 = "13.20" := by decide
    have h2 : computeRiskLevel (.str "13.20") = ⟨"High", "#e67e22"⟩ := by decide
    simp [handleSubmit, submitSettle, readFwi, h, h2]
  · have h : toFixed (parseFloat (.str "5.996")) 2 = "6.00" := by decide
    simp [handleSubmit, submitSettle, readFwi, h]
  · have h : toFixed (parseFloat (.str "5.996")) 2 = "6.00" := by decide
    have h2 : computeRiskLevel (.str "6.00") = ⟨"Moderate", "#f1c40f"⟩ := by decide
    simp [handleSubmit, submitSettle, readFwi, h, h2]

theorem handleSubmit_success_witness :
    parseFloat (.str "13.2") = .fin 7430939385161318 (-49) ∧
    |finVal 7430939385161318 (-49)| < 10 ^ 21 ∧
    (∃ p : String,
      (handleSubmit initialState (.response true (.value (.str "13.2")))).prediction = some p ∧
      WritesFixed (decide (finVal 7430939385161318 (-49) < 0))
        ⌊|finVal 7430939385161318 (-49)| * 10 ^ 2 + 1 / 2⌋₊ 2 p ∧
      (handleSubmit initialState (.response true (.value (.str "13.2")))).riskLevel =
        some (computeRiskLevel (.str p))) :=
  ⟨by decide, by norm_num [finVal, abs_lt],
    (handleSubmit_success initialState (.str "13.2") 7430939385161318 (-49) (by decide)
      (by norm_num [finVal, abs_lt])).1⟩

/-! ## Geolocation -/

/-- C6: for every form state and every position whose latitude and longitude are finite
Numbers of magnitude below `10 ^ 21` (as all coordinates in degrees are, being bounded by
90 and 180), the form state after the geolocation success callback holds under
`latitude` and `longitude` the two coordinates rounded to 6 decimal places (the magnitude
times `10 ^ 6` rounded to the nearest integer) written with exactly 6 fractional digits,
whatever was there before, and every other field is unchanged; the position
(28.6139, 77.2090) gives `28.613900` and `77.209000`. -/
theorem getLocation_coordinates (fd : FormData) (m₁ e₁ m₂ e₂ : ℤ)
    (hlat : |finVal m₁ e₁| < 10 ^ 21) (hlon : |finVal m₂ e₂| < 10 ^ 21) :
    (∃ p : String, getLocation fd (.position (.fin m₁ e₁) (.fin m₂ e₂)) "latitude" = some p ∧
      WritesFixed (decide (finVal m₁ e₁ < 0)) ⌊|finVal m₁ e₁| * 10 ^ 6 + 1 / 2⌋₊ 6 p) ∧
    (∃ p : String, getLocation fd (.position (.fin m₁ e₁) (.fin m₂ e₂)) "longitude" = some p ∧
      WritesFixed (decide (finVal m₂ e₂ < 0)) ⌊|finVal m₂ e₂| * 10 ^ 6 + 1 / 2⌋₊ 6 p) ∧
    (∀ k : String, k ≠ "latitude" → k ≠ "longitude" →
      getLocation fd (.position (.fin m₁ e₁) (.fin m₂ e₂)) k = fd k) ∧
    (getLocation fd (.position (decimalToDouble false 286139 (-4))
        (decimalToDouble false 772090 (-4)))
        "latitude" = some "28.613900" ∧
      getLocation fd (.position (decimalToDouble false 286139 (-4))
        (decimalToDouble false 772090 (-4)))
        "longitude" = some "77.209000") := by
  refine ⟨⟨toFixed (.fin m₁ e₁) 6, ?_, toFixed_fin m₁ e₁ 6 (by norm_num) hlat⟩,
    ⟨toFixed (.fin m₂ e₂) 6, ?_, toFixed_fin m₂ e₂ 6 (by norm_num) hlon⟩, ?_, ?_, ?_⟩
  · have hne : ("latitude" : String) ≠ "longitude" := by decide
    simp [getLocation, setField, hne]
  · simp [getLocation, setField]
  · intro k h1 h2
    simp [getLocation, setField, h1, h2]
  · have hne : ("latitude" : String) ≠ "longitude" := by decide
    have h : toFixed (decimalToDouble false 286139 (-4)) 6 = "28.613900" := by decide
    simp [getLocation, setField, hne, h]
  · have h : toFixed (decimalToDouble false 772090 (-4)) 6 = "77.209000" := by decide
    simp [getLocation, setField, h]

theorem getLocation_coordinates_witness :
    decimalToDouble false 286139 (-4) = .fin 8054096836101040 (-48) ∧
    decimalToDouble false 772090 (-4) = .fin 5433100369213260 (-46) ∧
    |finVal 8054096836101040 (-48)| < 10 ^ 21 ∧ |finVal 5433100369213260 (-46)| < 10 ^ 21 ∧
    (∃ p : String,
      getLocation initialFormData
          (.position (.fin 8054096836101040 (-48)) (.fin 5433100369213260 (-46)))
        "latitude" = some p ∧
      WritesFixed (decide (finVal 8054096836101040 (-48) < 0))
        ⌊|finVal 8054096836101040 (-48)| * 10 ^ 6 + 1 / 2⌋₊ 6 p) :=
  ⟨by decide, by decide, by norm_num [finVal, abs_lt], by norm_num [finVal, abs_lt],
    (getLocation_coordinates initialFormData 8054096836101040 (-48) 5433100369213260 (-46)
      (by norm_num [finVal, abs_lt]) (by norm_num [finVal, abs_lt])).1⟩

end FireWeather
